import Mathlib

/-!
Verification of the NL→SQL query pipeline of `app/query_engine.py`
(Text-to-SQL assistant).  The pure, string-level core of the pipeline —
`_clean_sql`, `_enforce_select_only`, `_apply_limit`,
`_format_rows_for_answer`, `_summarize_table`, `_execute_sql` and the
orchestrator `process_question` — is embedded shallowly over `List Char`.
External effects (the language-model completions and the SQLite store)
are abstracted as oracles passed in as function arguments: a raw
completion outcome `Except String String` for the generation call, an
oracle `String → Except String String` for the summarization call, and
`String → Except String (List String × List (List α))` for the store.
Exceptions are modelled as `Except.error` carrying `str(exc)`, which for
`ValueError(msg)` is `msg` itself.  Scalar row values are kept abstract
(a type `α` with a rendering function standing for Python `str`).
-/

namespace TextToSql

/-- Python whitespace for `str.strip` / regex `\s` (ASCII fragment):
space, tab, newline, carriage return, vertical tab, form feed. -/
def isPySpace (c : Char) : Bool :=
  c = ' ' || c = '\t' || c = '\n' || c = '\r' || c = '\x0b' || c = '\x0c'

/-- ASCII alphanumeric, the character class `[a-zA-Z0-9]` of the
fence-opener regex in `_clean_sql`. -/
def isAsciiAlnum (c : Char) : Bool :=
  ('a' ≤ c && c ≤ 'z') || ('A' ≤ c && c ≤ 'Z') || ('0' ≤ c && c ≤ '9')

/-- Regex word character `\w` (ASCII): `[a-zA-Z0-9_]`; used for the
word-boundary `\b` semantics of the `select` and `limit` patterns. -/
def isWordChar (c : Char) : Bool :=
  isAsciiAlnum c || c = '_'

/-- Drop matching characters from the right end of a list
(Python `str.rstrip` with the corresponding character set). -/
def rdropWhileL (p : Char → Bool) (l : List Char) : List Char :=
  (l.reverse.dropWhile p).reverse

/-- Python `str.strip()`: remove leading and trailing whitespace. -/
def pyStripL (l : List Char) : List Char :=
  rdropWhileL isPySpace (l.dropWhile isPySpace)

/-- Python `str.upper()` (ASCII inputs). -/
def toUpperL (l : List Char) : List Char :=
  l.map Char.toUpper

/-- Is `pat` a prefix of `s`? -/
def prefixOfL : List Char → List Char → Bool
  | [], _ => true
  | _ :: _, [] => false
  | p :: ps, c :: cs => p = c && prefixOfL ps cs

/-- Does `pat` occur as a contiguous substring of `s`?
(Python `pat in s`.) -/
def infixOfL (pat : List Char) : List Char → Bool
  | [] => prefixOfL pat []
  | c :: cs => prefixOfL pat (c :: cs) || infixOfL pat cs

/-- The sentinel test of `_clean_sql`:
`"UNSUPPORTED" in s.upper()`. -/
def containsUnsupported (l : List Char) : Bool :=
  infixOfL "UNSUPPORTED".data (toUpperL l)

/-- `re.sub(r"^```[a-zA-Z0-9]*\s*", "", s)`: if the text starts with
three backticks, remove them together with the (greedy) run of
alphanumerics (the language tag) and the following whitespace run. -/
def stripFenceOpen (l : List Char) : List Char :=
  match l with
  | '`' :: '`' :: '`' :: rest =>
      (rest.dropWhile isAsciiAlnum).dropWhile isPySpace
  | _ => l

/-- `re.sub(r"\s*```$", "", s)`: if the text ends with three backticks,
remove them together with the whitespace run immediately before them.
(The input here never ends in whitespace — it is a suffix of stripped
text — so Python's `$`-before-final-newline subtlety cannot arise.) -/
def stripFenceClose (l : List Char) : List Char :=
  match l.reverse with
  | '`' :: '`' :: '`' :: rest => (rest.dropWhile isPySpace).reverse
  | _ => l

/-- The suffix of `w` after its last `'\n'`. -/
def afterLastNewline (w : List Char) : List Char :=
  (w.reverse.takeWhile (fun c => !(c = '\n'))).reverse

/-- `re.sub(r"^\s*sql\s*\n", "", s, flags=IGNORECASE)`: leading
whitespace, the word `sql` (case-insensitive), then a whitespace run
that must contain a newline; the match extends through the last newline
of that run (greedy `\s*` backtracking to the final `\n`). -/
def stripSqlLine (l : List Char) : List Char :=
  match l.dropWhile isPySpace with
  | c1 :: c2 :: c3 :: rest =>
      if c1.toLower = 's' && c2.toLower = 'q' && c3.toLower = 'l' then
        let w := rest.takeWhile isPySpace
        let tail := rest.dropWhile isPySpace
        if w.contains '\n' then afterLastNewline w ++ tail else l
      else l
  | _ => l

/-- `re.sub(r"^\s*SQL\s*:\s*", "", s, flags=IGNORECASE)`: leading
whitespace, `sql` (case-insensitive), optional whitespace, a colon,
optional whitespace — all removed. -/
def stripSqlLabel (l : List Char) : List Char :=
  match l.dropWhile isPySpace with
  | c1 :: c2 :: c3 :: rest =>
      if c1.toLower = 's' && c2.toLower = 'q' && c3.toLower = 'l' then
        match rest.dropWhile isPySpace with
        | ':' :: rest2 => rest2.dropWhile isPySpace
        | _ => l
      else l
  | _ => l

/-- Python `s.split(";")`: split at every semicolon, keeping empty
segments (`n` separators yield `n+1` segments). -/
def splitSemi : List Char → List (List Char)
  | [] => [[]]
  | c :: cs =>
      if c = ';' then [] :: splitSemi cs
      else
        match splitSemi cs with
        | [] => [[c]]
        | p :: ps => (c :: p) :: ps

/-- `next((p for p in parts if p), "")`: the first non-empty segment,
or `[]` when none exists. -/
def firstNonEmpty : List (List Char) → List Char
  | [] => []
  | p :: ps => if p = [] then firstNonEmpty ps else p

/-- The final stage of `_clean_sql`: split on `;`, strip each segment,
keep the first non-empty one and re-append a single `;` (empty result
when no segment survives). -/
def splitStage (l : List Char) : List Char :=
  let first := firstNonEmpty ((splitSemi l).map pyStripL)
  if first = [] then [] else first ++ [';']

/-- The four regex substitutions of `_clean_sql`, in source order. -/
def postSubsL (l : List Char) : List Char :=
  stripSqlLabel (stripSqlLine (stripFenceClose (stripFenceOpen l)))

/-- `_clean_sql` on character lists: strip, check the `UNSUPPORTED`
sentinel, apply the four substitutions, then the split stage. -/
def cleanSqlL (l : List Char) : List Char :=
  let s := pyStripL l
  if containsUnsupported s then "UNSUPPORTED".data
  else splitStage (postSubsL s)

/-- `_clean_sql(text)`. -/
def clean_sql (text : String) : String :=
  ⟨cleanSqlL text.data⟩

/-- Case-insensitive prefix test (ASCII, via `Char.toLower`), exactly
the semantics of matching a literal word under `re.IGNORECASE`. -/
def prefixOfCI : List Char → List Char → Bool
  | [], _ => true
  | _ :: _, [] => false
  | p :: ps, c :: cs => p.toLower = c.toLower && prefixOfCI ps cs

/-- `re.match(r"^\s*select\b", sql, flags=IGNORECASE)`: optional
leading whitespace, the word `select` case-insensitively, then a word
boundary (end of string or a non-word character). -/
def matchesSelect (l : List Char) : Bool :=
  let r := l.dropWhile isPySpace
  prefixOfCI "select".data r &&
    (match r.drop 6 with
     | [] => true
     | c :: _ => !isWordChar c)

/-- `_enforce_select_only(sql)`: raise
`ValueError("Only SELECT statements are allowed.")` unless the
statement matches `^\s*select\b` case-insensitively. -/
def enforce_select_only (sql : String) : Except String String :=
  if matchesSelect sql.data then Except.ok sql
  else Except.error "Only SELECT statements are allowed."

/-- Does `\blimit\s+\d+\b` (IGNORECASE) match starting at this exact
position?  (The boundary before `l` is the caller's responsibility.)
After `limit`: a non-empty whitespace run, a non-empty digit run, then
a word boundary. -/
def limitAt (l : List Char) : Bool :=
  prefixOfCI "limit".data l &&
    (let r := l.drop 5
     let w := r.takeWhile isPySpace
     let r2 := r.dropWhile isPySpace
     let d := r2.takeWhile Char.isDigit
     let r3 := r2.dropWhile Char.isDigit
     !w.isEmpty && !d.isEmpty &&
       (match r3 with
        | [] => true
        | c :: _ => !isWordChar c))

/-- Scan every position of the text for a `\blimit\s+\d+\b` match;
`prevWord` records whether the previous character is a word character
(for the leading `\b`). -/
def containsLimitAux (prevWord : Bool) : List Char → Bool
  | [] => false
  | c :: cs =>
      (!prevWord && limitAt (c :: cs)) || containsLimitAux (isWordChar c) cs

/-- `re.search(r"\blimit\s+\d+\b", sql, flags=IGNORECASE)`. -/
def containsLimitClause (l : List Char) : Bool :=
  containsLimitAux false l

/-- `_apply_limit(sql, limit)`: no-op when `limit` is falsy (`None` or
`0`) or when a `LIMIT <digits>` clause is already present; otherwise
`sql.rstrip().rstrip(";")` followed by `f" LIMIT {int(limit)};"`. -/
def apply_limit (sql : String) (limit : Option Int) : String :=
  match limit with
  | none => sql
  | some k =>
      if k = 0 then sql
      else if containsLimitClause sql.data then sql
      else
        let base := rdropWhileL (fun c => c = ';') (rdropWhileL isPySpace sql.data)
        ⟨base ++ " LIMIT ".data ++ (toString k).data ++ [';']⟩

/-- `_format_rows_for_answer(rows)`: a pure function of the row list
(no model call); `toStr` stands for Python `str` on a scalar value. -/
def format_rows_for_answer (toStr : α → String) (rows : List (List α)) : String :=
  match rows with
  | [] => "No rows matched your query."
  | [[v]] => "The result is " ++ toStr v ++ "."
  | _ =>
      "Found " ++ toString rows.length ++ " row(s). Showing top " ++
        toString (min rows.length 5) ++ "."

/-- The summarization prompt built by `_summarize_table`: the first 30
rows rendered as a Markdown table with header and separator rows,
embedded with the question into the fixed instruction text. -/
def summPrompt (toStr : α → String) (question : String) (columns : List String)
    (rows : List (List α)) : String :=
  let header := String.intercalate " | " columns
  let sep := String.intercalate " | " (List.replicate columns.length "---")
  let body := String.intercalate "\n"
    ((rows.take 30).map (fun row => String.intercalate " | " (row.map toStr)))
  "The user asked: '" ++ question ++ "'\n\nThe following table was returned:\n\n" ++
    header ++ "\n" ++ sep ++ "\n" ++ body ++
    "\n\nWrite a short, conversational summary of this data. Highlight interesting values, trends, or anomalies."

/-- `_summarize_table(question, columns, rows)`: fixed message when
`columns` or `rows` is empty (no model call); otherwise one model call
whose result is stripped, with any exception recovered into the fixed
fallback string. -/
def summarize_table (llm : String → Except String String) (toStr : α → String)
    (question : String) (columns : List String) (rows : List (List α)) : String :=
  if columns.isEmpty || rows.isEmpty then "There was no data to summarize."
  else
    match llm (summPrompt toStr question columns rows) with
    | Except.ok response => ⟨pyStripL response.data⟩
    | Except.error _ => "Here is the data as requested."

/-- `_execute_sql(sql)` with the SQLite store abstracted as `db`:
`ValueError` on empty input, otherwise the store's outcome (its
columns/rows on success, its exception text on failure). -/
def execute_sql (db : String → Except String (List String × List (List α)))
    (sql : String) : Except String (List String × List (List α)) :=
  if sql = "" then Except.error "Generated SQL was empty after sanitization."
  else db sql

/-- `QueryResponse` (pydantic model in `app/model.py`): all fields but
`answer` default to `None`. -/
structure QueryResponse (α : Type) where
  sql : Option String := none
  answer : String
  error : Option String := none
  columns : Option (List String) := none
  rows : Option (List (List α)) := none
  deriving DecidableEq

/-- `process_question(question, return_table, limit)`.
The generation call `LLM.predict` (with its prompt construction) is
abstracted as the outcome `gen`; as in `_generate_sql`, its raw text is
cleaned and passed through `_enforce_select_only` *before* the
orchestrator's `UNSUPPORTED` test.  Every raised exception is caught at
the top level and mapped to the fixed generic-failure response with the
exception text in `error`. -/
def process_question (gen : Except String String)
    (db : String → Except String (List String × List (List α)))
    (llm : String → Except String String) (toStr : α → String)
    (question : String) (return_table : Bool) (limit : Option Int) :
    QueryResponse α :=
  match gen with
  | Except.error e =>
      { sql := none, answer := "An error occurred while processing your question.",
        error := some e }
  | Except.ok raw =>
      match enforce_select_only (clean_sql raw) with
      | Except.error e =>
          { sql := none, answer := "An error occurred while processing your question.",
            error := some e }
      | Except.ok sql0 =>
          if (⟨toUpperL (pyStripL sql0.data)⟩ : String) = "UNSUPPORTED" then
            { sql := none,
              answer := "Sorry, I cannot answer that question based on the available data.",
              error := none, columns := some [], rows := some [] }
          else
            let sql1 := apply_limit sql0 limit
            match execute_sql db sql1 with
            | Except.error e =>
                { sql := none,
                  answer := "An error occurred while processing your question.",
                  error := some e }
            | Except.ok (columns, rows) =>
                { sql := some sql1,
                  answer :=
                    if return_table then summarize_table llm toStr question columns rows
                    else format_rows_for_answer toStr rows,
                  error := none,
                  columns := if return_table then some columns else none,
                  rows := if return_table then some rows else none }

/-- A raw completion wrapped in a markdown fenced code block: three
backticks, a language tag, a newline, the inner content, a newline and
the closing three backticks. -/
def fencedL (lang inner : List Char) : List Char :=
  ['`', '`', '`'] ++ lang ++ ['\n'] ++ inner ++ ['\n', '`', '`', '`']

/-! ## Lemmas and claim theorems -/

theorem enforce_ok_elim {sql out : String}
    (h : enforce_select_only sql = Except.ok out) :
    out = sql ∧ matchesSelect sql.data = true := by
  unfold enforce_select_only at h
  by_cases hm : matchesSelect sql.data = true
  · simp only [hm, if_true] at h
    exact ⟨(Except.ok.injEq _ _ ▸ h).symm, hm⟩
  · simp [hm] at h

/-- C10: the safety gate never modifies an accepted statement — when
`_enforce_select_only` does not raise, it returns its input unchanged. -/
theorem C10_gate_returns_input_unchanged (sql out : String)
    (h : enforce_select_only sql = Except.ok out) : out = sql :=
  (enforce_ok_elim h).1

theorem C10_witness : ("SELECT 1" : String) = "SELECT 1" :=
  C10_gate_returns_input_unchanged "SELECT 1" "SELECT 1" (by rfl)

/-- C9: `_execute_sql` raises `ValueError` on the empty statement, and
for any statement accepted by the safety gate the empty-input branch is
not taken: the statement goes straight to the store. -/
theorem C9_executor_empty_guard {α : Type}
    (db : String → Except String (List String × List (List α))) :
    execute_sql db "" = Except.error "Generated SQL was empty after sanitization." ∧
    ∀ sql out : String, enforce_select_only sql = Except.ok out →
      execute_sql db out = db out := by
  constructor
  · rfl
  · intro sql out h
    obtain ⟨rfl, hm⟩ := enforce_ok_elim h
    unfold execute_sql
    rw [if_neg]
    intro hempty
    rw [hempty] at hm
    exact absurd hm (by decide)

theorem C9_witness :
    execute_sql (α := Int) (fun _ => Except.ok ([], [])) "" =
      Except.error "Generated SQL was empty after sanitization." ∧
    execute_sql (α := Int) (fun _ => Except.ok ([], [])) "SELECT 1;" =
      (fun _ => Except.ok ([], [])) "SELECT 1;" :=
  ⟨(C9_executor_empty_guard _).1,
   (C9_executor_empty_guard _).2 "SELECT 1;" "SELECT 1;" (by rfl)⟩

/-- C7: terse mode is a pure function of the row list with exactly
three outcomes — the fixed no-rows message, the single-value message
for one row with one value, and the `Found {n} row(s)` message with
`min n 5` otherwise.  (No model call: `format_rows_for_answer` takes no
model oracle at all.) -/
theorem C7_terse_mode {α : Type} (toStr : α → String) (rows : List (List α)) :
    (rows = [] → format_rows_for_answer toStr rows = "No rows matched your query.") ∧
    (∀ v, rows = [[v]] →
      format_rows_for_answer toStr rows = "The result is " ++ toStr v ++ ".") ∧
    (rows ≠ [] → (∀ v, rows ≠ [[v]]) →
      format_rows_for_answer toStr rows =
        "Found " ++ toString rows.length ++ " row(s). Showing top " ++
          toString (min rows.length 5) ++ ".") := by
  refine ⟨?_, ?_, ?_⟩
  · rintro rfl; rfl
  · rintro v rfl; rfl
  · intro hne hnot
    match rows with
    | [] => exact absurd rfl hne
    | [[v]] => exact absurd rfl (hnot v)
    | [] :: rs => simp [format_rows_for_answer]
    | [(v :: w :: t)] => simp [format_rows_for_answer]
    | r :: s :: rs => simp [format_rows_for_answer]

theorem C7_witness :
    format_rows_for_answer (fun i : Int => toString i) [] =
      "No rows matched your query." ∧
    format_rows_for_answer (fun i : Int => toString i) [[5]] =
      "The result is " ++ toString (5 : Int) ++ "." ∧
    format_rows_for_answer (fun i : Int => toString i) [[1], [2]] =
      "Found " ++ toString ([[1], [2]] : List (List Int)).length ++
        " row(s). Showing top " ++
        toString (min ([[1], [2]] : List (List Int)).length 5) ++ "." :=
  ⟨(C7_terse_mode _ _).1 rfl,
   (C7_terse_mode _ _).2.1 5 rfl,
   (C7_terse_mode _ _).2.2 (by simp) (by intro v; simp)⟩

/-- C2: any sanitized statement that fails `^\s*select\b` makes the
safety gate raise `"Only SELECT statements are allowed."`, and
`process_question` then returns the generic-failure response carrying
that message with null `sql`; the response is the same for every store
oracle `db`, i.e. the statement is never executed. -/
theorem C2_gate_rejection_response {α : Type} (raw : String)
    (db : String → Except String (List String × List (List α)))
    (llm : String → Except String String) (toStr : α → String)
    (q : String) (rt : Bool) (lim : Option Int)
    (h : matchesSelect (clean_sql raw).data = false) :
    enforce_select_only (clean_sql raw) =
      Except.error "Only SELECT statements are allowed." ∧
    process_question (Except.ok raw) db llm toStr q rt lim =
      { sql := none, answer := "An error occurred while processing your question.",
        error := some "Only SELECT statements are allowed." } := by
  have he : enforce_select_only (clean_sql raw) =
      Except.error "Only SELECT statements are allowed." := by
    unfold enforce_select_only
    rw [h]
    rfl
  refine ⟨he, ?_⟩
  simp only [process_question, he]

theorem C2_witness :
    enforce_select_only (clean_sql "DROP TABLE periods;") =
      Except.error "Only SELECT statements are allowed." ∧
    process_question (α := Int) (Except.ok "DROP TABLE periods;")
        (fun _ => Except.ok (["c"], [[1]])) (fun _ => Except.ok "s")
        toString "q" true none =
      { sql := none, answer := "An error occurred while processing your question.",
        error := some "Only SELECT statements are allowed." } :=
  C2_gate_rejection_response "DROP TABLE periods;" _ _ _ _ _ _ (by decide)

/-- C1: divergence witness for the `UNSUPPORTED` path.  For every raw
completion containing `"UNSUPPORTED"` (any case), `_clean_sql` returns
the sentinel, but `_generate_sql` feeds it to `_enforce_select_only`
*before* `process_question`'s sentinel test, so the pipeline returns
the generic-failure response with
`error = "Only SELECT statements are allowed."` — never the refusal
response the claim (and the dead branch at
`query_engine.py:176-183`) describes. -/
theorem C1_unsupported_hits_gate {α : Type} (raw : String)
    (db : String → Except String (List String × List (List α)))
    (llm : String → Except String String) (toStr : α → String)
    (q : String) (rt : Bool) (lim : Option Int)
    (h : containsUnsupported (pyStripL raw.data) = true) :
    clean_sql raw = "UNSUPPORTED" ∧
    process_question (Except.ok raw) db llm toStr q rt lim =
      { sql := none, answer := "An error occurred while processing your question.",
        error := some "Only SELECT statements are allowed." } := by
  have hc : clean_sql raw = "UNSUPPORTED" := by
    simp only [clean_sql, cleanSqlL, h, if_true]
  refine ⟨hc, ?_⟩
  have he : enforce_select_only (clean_sql raw) =
      Except.error "Only SELECT statements are allowed." := by
    rw [hc]; rfl
  simp only [process_question, he]

theorem C1_witness :
    clean_sql "UNSUPPORTED: cannot answer" = "UNSUPPORTED" ∧
    process_question (α := Int) (Except.ok "UNSUPPORTED: cannot answer")
        (fun _ => Except.ok (["c"], [[1]])) (fun _ => Except.ok "s")
        toString "q" true none =
      { sql := none, answer := "An error occurred while processing your question.",
        error := some "Only SELECT statements are allowed." } :=
  C1_unsupported_hits_gate "UNSUPPORTED: cannot answer" _ _ _ _ _ _ (by decide)

/-- C8: narrative summarization never produces a request-level error.
With empty columns or rows it returns the fixed no-data string for
*every* model oracle (no model call); a failing model call is recovered
into the fixed fallback string; and whenever the pipeline reaches the
summarization step (generation, gate and execution all succeeded) the
final response of `process_question` has `error = none`, whatever the
summarization oracle does. -/
theorem C8_summarization_never_errors {α : Type}
    (llm : String → Except String String) (toStr : α → String)
    (q : String) (cols : List String) (rows : List (List α)) :
    (cols = [] ∨ rows = [] → ∀ llm' : String → Except String String,
      summarize_table llm' toStr q cols rows = "There was no data to summarize.") ∧
    (∀ e, cols ≠ [] → rows ≠ [] →
      llm (summPrompt toStr q cols rows) = Except.error e →
      summarize_table llm toStr q cols rows = "Here is the data as requested.") ∧
    (∀ (gen : Except String String)
        (db : String → Except String (List String × List (List α)))
        (lim : Option Int) (rt : Bool) (raw s : String),
      gen = Except.ok raw →
      enforce_select_only (clean_sql raw) = Except.ok s →
      (∃ cr, execute_sql db (apply_limit s lim) = Except.ok cr) →
      (process_question gen db llm toStr q rt lim).error = none) := by
  refine ⟨?_, ?_, ?_⟩
  · intro h llm'
    unfold summarize_table
    rw [if_pos]
    rcases h with h | h <;> simp [h]
  · intro e hc hr hllm
    unfold summarize_table
    rw [if_neg, hllm]
    simp [hc, hr]
  · rintro gen db lim rt raw s rfl henf ⟨cr, hcr⟩
    simp only [process_question, henf]
    by_cases hu : (⟨toUpperL (pyStripL s.data)⟩ : String) = "UNSUPPORTED"
    · rw [if_pos hu]
    · rw [if_neg hu]
      simp only [hcr]

theorem C8_witness :
    summarize_table (α := Int) (fun _ => Except.ok "ignored") toString "q" [] [] =
      "There was no data to summarize." ∧
    summarize_table (α := Int) (fun _ => Except.error "boom") toString "q" ["c"] [[1]] =
      "Here is the data as requested." ∧
    (process_question (α := Int) (Except.ok "SELECT 1;")
        (fun _ => Except.ok (["c"], [[1]])) (fun _ => Except.error "boom")
        toString "q" true none).error = none :=
  ⟨(C8_summarization_never_errors (α := Int) (fun _ => Except.error "boom")
      toString "q" [] []).1 (Or.inl rfl) (fun _ => Except.ok "ignored"),
   (C8_summarization_never_errors (fun _ => Except.error "boom") toString "q" ["c"] [[1]]).2.1
     "boom" (by simp) (by simp) rfl,
   (C8_summarization_never_errors (fun _ => Except.error "boom") toString "q" ["c"] [[1]]).2.2
     (Except.ok "SELECT 1;") (fun _ => Except.ok (["c"], [[1]])) none true
     "SELECT 1;" "SELECT 1;" rfl (by rfl) ⟨(["c"], [[1]]), by rfl⟩⟩

/-- Counterexample to C3 as stated: on `"SELECT 1;;"` the enforcer
strips *both* trailing semicolons (`rstrip(";")` removes the whole
trailing run), so the output differs from the one predicted by
"strips one trailing `';'`". -/
theorem C3_counterexample :
    apply_limit "SELECT 1;;" (some 10) = "SELECT 1 LIMIT 10;" ∧
    ("SELECT 1 LIMIT 10;" : String) ≠ "SELECT 1; LIMIT 10;" := by
  constructor
  · rfl
  · decide

/-- C3 (amended): `_apply_limit` is the identity for a falsy limit
(`None`/`0`) and for statements already containing a case-insensitive
`LIMIT <digits>` clause; otherwise it strips trailing whitespace, then
*all* trailing `';'` characters, and appends `" LIMIT {limit};"`.
Scenario D holds as stated. -/
theorem C3_amended_limit_enforcer (s : String) (k : Option Int) :
    ((k = none ∨ k = some 0) → apply_limit s k = s) ∧
    (∀ j, k = some j → j ≠ 0 → containsLimitClause s.data = true →
      apply_limit s k = s) ∧
    (∀ j, k = some j → j ≠ 0 → containsLimitClause s.data = false →
      apply_limit s k =
        ⟨rdropWhileL (fun c => c = ';') (rdropWhileL isPySpace s.data) ++
          " LIMIT ".data ++ (toString j).data ++ [';']⟩) ∧
    (apply_limit "SELECT * FROM volumes" (some 10) =
      "SELECT * FROM volumes LIMIT 10;" ∧
     apply_limit (apply_limit "SELECT * FROM volumes" (some 10)) (some 10) =
      "SELECT * FROM volumes LIMIT 10;") := by
  refine ⟨?_, ?_, ?_, by constructor <;> rfl⟩
  · rintro (rfl | rfl) <;> rfl
  · rintro j rfl hj hc
    simp only [apply_limit]
    rw [if_neg hj, if_pos hc]
  · rintro j rfl hj hc
    simp only [apply_limit]
    rw [if_neg hj, if_neg (by rw [hc]; exact Bool.false_ne_true)]

theorem C3_witness :
    apply_limit "SELECT 1" none = "SELECT 1" ∧
    apply_limit "SELECT 1" (some 10) =
      ⟨rdropWhileL (fun c => c = ';')
          (rdropWhileL isPySpace ("SELECT 1" : String).data) ++
        " LIMIT ".data ++ (toString (10 : Int)).data ++ [';']⟩ :=
  ⟨(C3_amended_limit_enforcer "SELECT 1" none).1 (Or.inl rfl),
   (C3_amended_limit_enforcer "SELECT 1" (some 10)).2.2.1 10 rfl
     (by decide) (by decide)⟩

theorem splitSemi_ne_nil (l : List Char) : splitSemi l ≠ [] := by
  cases l with
  | nil => simp [splitSemi]
  | cons c cs =>
    unfold splitSemi
    by_cases h : c = ';'
    · simp [h]
    · rw [if_neg h]
      cases splitSemi cs <;> simp

theorem not_semi_of_mem_splitSemi (l : List Char) :
    ∀ p ∈ splitSemi l, ';' ∉ p := by
  induction l with
  | nil =>
    intro p hp
    simp only [splitSemi, List.mem_singleton] at hp
    subst hp
    simp
  | cons c cs ih =>
    intro p hp
    unfold splitSemi at hp
    by_cases h : c = ';'
    · rw [if_pos h] at hp
      rcases List.mem_cons.mp hp with rfl | hp'
      · simp
      · exact ih p hp'
    · rw [if_neg h] at hp
      cases hsp : splitSemi cs with
      | nil => exact absurd hsp (splitSemi_ne_nil cs)
      | cons q qs =>
        rw [hsp] at hp
        rcases List.mem_cons.mp hp with rfl | hp'
        · intro hmem
          rcases List.mem_cons.mp hmem with hceq | hq
          · exact h hceq.symm
          · exact ih q (hsp ▸ List.mem_cons_self q qs) hq
        · exact ih p (hsp ▸ List.mem_cons_of_mem q hp')

theorem mem_of_mem_pyStripL {c : Char} {l : List Char}
    (h : c ∈ pyStripL l) : c ∈ l := by
  unfold pyStripL rdropWhileL at h
  rw [List.mem_reverse] at h
  have h2 := (List.dropWhile_sublist _).subset h
  rw [List.mem_reverse] at h2
  exact (List.dropWhile_sublist _).subset h2

theorem firstNonEmpty_spec (parts : List (List Char)) :
    firstNonEmpty parts = [] ∨
      (firstNonEmpty parts ∈ parts ∧ firstNonEmpty parts ≠ []) := by
  induction parts with
  | nil => exact Or.inl rfl
  | cons p ps ih =>
    unfold firstNonEmpty
    by_cases h : p = []
    · rw [if_pos h]
      rcases ih with h' | ⟨hm, hne⟩
      · exact Or.inl h'
      · exact Or.inr ⟨List.mem_cons_of_mem _ hm, hne⟩
    · rw [if_neg h]
      exact Or.inr ⟨List.mem_cons_self _ _, h⟩

/-- C5: for raw completions without the `UNSUPPORTED` marker,
`_clean_sql` returns either the empty string or the first non-empty
trimmed segment of the processed text split on `';'`, with a single
`';'` appended: a successfully returned statement is non-empty,
contains no interior semicolon (one statement only — everything after
the first `';'` is discarded) and is semicolon-terminated. -/
theorem C5_sanitizer_single_statement (raw : String)
    (h : containsUnsupported (pyStripL raw.data) = false) :
    clean_sql raw = "" ∨
    ∃ seg : List Char, seg ≠ [] ∧ ';' ∉ seg ∧
      seg = firstNonEmpty
        ((splitSemi (postSubsL (pyStripL raw.data))).map pyStripL) ∧
      clean_sql raw = ⟨seg ++ [';']⟩ := by
  have key : clean_sql raw = ⟨splitStage (postSubsL (pyStripL raw.data))⟩ := by
    unfold clean_sql cleanSqlL
    simp only [h, Bool.false_eq_true, if_false]
  rw [key]
  by_cases hf :
      firstNonEmpty ((splitSemi (postSubsL (pyStripL raw.data))).map pyStripL) = []
  · left
    simp only [splitStage]
    rw [if_pos hf]
  · right
    refine ⟨_, hf, ?_, rfl, by simp only [splitStage]; rw [if_neg hf]⟩
    rcases firstNonEmpty_spec
        ((splitSemi (postSubsL (pyStripL raw.data))).map pyStripL) with h' | ⟨hm, _⟩
    · exact absurd h' hf
    · obtain ⟨p, hp, hpeq⟩ := List.mem_map.mp hm
      intro hsemi
      rw [← hpeq] at hsemi
      exact not_semi_of_mem_splitSemi _ p hp (mem_of_mem_pyStripL hsemi)

theorem C5_witness :
    clean_sql "SELECT a; DROP TABLE x;" = "" ∨
    ∃ seg : List Char, seg ≠ [] ∧ ';' ∉ seg ∧
      seg = firstNonEmpty
        ((splitSemi (postSubsL (pyStripL ("SELECT a; DROP TABLE x;" : String).data))).map
          pyStripL) ∧
      clean_sql "SELECT a; DROP TABLE x;" = ⟨seg ++ [';']⟩ :=
  C5_sanitizer_single_statement "SELECT a; DROP TABLE x;" (by decide)

theorem dropWhile_append_of_all {α : Type} (p : α → Bool) (A l : List α)
    (hA : ∀ c ∈ A, p c = true) : (A ++ l).dropWhile p = l.dropWhile p := by
  induction A with
  | nil => rfl
  | cons a A ih =>
    rw [List.cons_append,
      List.dropWhile_cons_of_pos (hA a (List.mem_cons_self a A))]
    exact ih (fun c hc => hA c (List.mem_cons_of_mem _ hc))

theorem rdropWhileL_eq_self (p : Char → Bool) (l : List Char)
    (h : ∀ c, l.getLast? = some c → p c = false) : rdropWhileL p l = l := by
  unfold rdropWhileL
  cases hl : l.reverse with
  | nil => simp [List.reverse_eq_nil_iff.mp hl]
  | cons c t =>
    have hc : l.getLast? = some c := by rw [← List.head?_reverse, hl]; rfl
    rw [List.dropWhile_cons_of_neg (by simp [h c hc]), ← hl,
      List.reverse_reverse]

/-- C6: for every raw completion wrapped in a fenced code block (with
or without an alphanumeric language tag) and not containing
`UNSUPPORTED`, the sanitizer strips the opening and closing fences and
continues with exactly the inner content; in particular
`"```sql\nSELECT 1;\n```"` sanitizes to `"SELECT 1;"`. -/
theorem C6_fence_stripping :
    (∀ lang inner : List Char,
      lang.all isAsciiAlnum = true →
      inner ≠ [] →
      (∀ c, inner.head? = some c → isPySpace c = false) →
      (∀ c, inner.getLast? = some c → isPySpace c = false) →
      containsUnsupported (fencedL lang inner) = false →
      cleanSqlL (fencedL lang inner) =
        splitStage (stripSqlLabel (stripSqlLine inner))) ∧
    clean_sql "```sql\nSELECT 1;\n```" = "SELECT 1;" := by
  constructor
  · intro lang inner hlang hne hhead hlast hun
    obtain ⟨c0, inner', rfl⟩ := List.exists_cons_of_ne_nil hne
    have hc0 : isPySpace c0 = false := hhead c0 rfl
    have hnf : fencedL lang (c0 :: inner') =
        '`' :: '`' :: '`' ::
          (lang ++ '\n' :: ((c0 :: inner') ++ '\n' :: '`' :: '`' :: ['`'])) := by
      simp [fencedL]
    have hgl : (fencedL lang (c0 :: inner')).getLast? = some '`' := by
      unfold fencedL
      rw [List.getLast?_append]
      rfl
    have hstrip : pyStripL (fencedL lang (c0 :: inner')) =
        fencedL lang (c0 :: inner') := by
      unfold pyStripL
      rw [hnf, List.dropWhile_cons_of_neg (by decide), ← hnf]
      exact rdropWhileL_eq_self _ _
        (fun c hc => by rw [hgl] at hc; cases hc; rfl)
    have hopen : stripFenceOpen (fencedL lang (c0 :: inner')) =
        (c0 :: inner') ++ '\n' :: '`' :: '`' :: ['`'] := by
      rw [hnf]
      show ((lang ++ '\n' :: (c0 :: inner' ++ ['\n', '`', '`', '`'])).dropWhile
          isAsciiAlnum).dropWhile isPySpace = c0 :: inner' ++ ['\n', '`', '`', '`']
      rw [dropWhile_append_of_all isAsciiAlnum lang _
          (fun c hc => by
            have := List.all_eq_true.mp hlang c hc
            simpa using this),
        List.dropWhile_cons_of_neg (by decide),
        List.dropWhile_cons_of_pos (by decide), List.cons_append,
        List.dropWhile_cons_of_neg (show ¬ isPySpace c0 by simp [hc0]),
        ← List.cons_append]
    have hrev : ((c0 :: inner') ++ '\n' :: '`' :: '`' :: ['`']).reverse =
        '`' :: '`' :: '`' :: ('\n' :: (c0 :: inner').reverse) := by
      rw [List.reverse_append]
      rfl
    have hclose : stripFenceClose ((c0 :: inner') ++ '\n' :: '`' :: '`' :: ['`']) =
        c0 :: inner' := by
      unfold stripFenceClose
      rw [hrev]
      show ((('\n' :: (c0 :: inner').reverse).dropWhile isPySpace)).reverse =
        c0 :: inner'
      rw [List.dropWhile_cons_of_pos (by decide)]
      cases hr : (c0 :: inner').reverse with
      | nil => exact absurd (List.reverse_eq_nil_iff.mp hr) (by simp)
      | cons cl t =>
        have hcl : (c0 :: inner').getLast? = some cl := by
          rw [← List.head?_reverse, hr]; rfl
        rw [List.dropWhile_cons_of_neg (by simp [hlast cl hcl]), ← hr,
          List.reverse_reverse]
    simp only [cleanSqlL]
    rw [hstrip, hun, if_neg (by simp)]
    unfold postSubsL
    rw [hopen, hclose]
  · rfl

theorem C6_witness :
    cleanSqlL (fencedL ("sql" : String).data ("SELECT 1;" : String).data) =
      splitStage (stripSqlLabel (stripSqlLine ("SELECT 1;" : String).data)) :=
  C6_fence_stripping.1 ("sql" : String).data ("SELECT 1;" : String).data
    (by decide) (by decide) (by decide) (by decide) (by decide)

theorem takeWhile_append_all {α : Type} (p : α → Bool) (A : List α) (b : α)
    (t : List α) (hA : ∀ c ∈ A, p c = true) (hb : p b = false) :
    (A ++ b :: t).takeWhile p = A := by
  induction A with
  | nil =>
    rw [List.nil_append, List.takeWhile_cons_of_neg (show ¬ p b by simp [hb])]
  | cons a A ih =>
    rw [List.cons_append,
      List.takeWhile_cons_of_pos (hA a (List.mem_cons_self a A)),
      ih (fun c hc => hA c (List.mem_cons_of_mem _ hc))]

theorem dropWhile_append_all {α : Type} (p : α → Bool) (A : List α) (b : α)
    (t : List α) (hA : ∀ c ∈ A, p c = true) (hb : p b = false) :
    (A ++ b :: t).dropWhile p = b :: t := by
  rw [dropWhile_append_of_all p A _ hA,
    List.dropWhile_cons_of_neg (by simp [hb])]

theorem isDigit_not_pySpace {c : Char} (h : c.isDigit = true) :
    isPySpace c = false := by
  by_contra hne
  have hs : isPySpace c = true := by revert hne; cases isPySpace c <;> simp
  have hcase : ((((c = ' ' ∨ c = '\t') ∨ c = '\n') ∨ c = '\r') ∨ c = '\x0b') ∨
      c = '\x0c' := by
    simpa [isPySpace] using hs
  rcases hcase with ((((rfl | rfl) | rfl) | rfl) | rfl) | rfl <;>
    exact absurd h (by decide)

theorem digitChar_isDigit {n : Nat} (h : n < 10) :
    (Nat.digitChar n).isDigit = true := by
  interval_cases n <;> decide

theorem toDigitsCore_digits (fuel : Nat) :
    ∀ (n : Nat) (ds : List Char), (∀ c ∈ ds, c.isDigit = true) →
      ∀ c ∈ Nat.toDigitsCore 10 fuel n ds, c.isDigit = true := by
  induction fuel with
  | zero => intro n ds hds; simpa [Nat.toDigitsCore] using hds
  | succ f ih =>
    intro n ds hds c hc
    have hcons : ∀ x ∈ Nat.digitChar (n % 10) :: ds, x.isDigit = true := by
      intro x hx
      rcases List.mem_cons.mp hx with rfl | hx'
      · exact digitChar_isDigit (Nat.mod_lt n (by norm_num))
      · exact hds x hx'
    simp only [Nat.toDigitsCore] at hc
    by_cases h0 : n / 10 = 0
    · rw [if_pos h0] at hc
      exact hcons c hc
    · rw [if_neg h0] at hc
      exact ih (n / 10) _ hcons c hc

theorem toDigitsCore_length (fuel : Nat) :
    ∀ (n : Nat) (ds : List Char),
      ds.length ≤ (Nat.toDigitsCore 10 fuel n ds).length := by
  induction fuel with
  | zero => intro n ds; simp [Nat.toDigitsCore]
  | succ f ih =>
    intro n ds
    simp only [Nat.toDigitsCore]
    by_cases h0 : n / 10 = 0
    · rw [if_pos h0]; simp
    · rw [if_neg h0]
      calc ds.length ≤ (Nat.digitChar (n % 10) :: ds).length := by simp
        _ ≤ _ := ih (n / 10) _

theorem natRepr_digits (n : Nat) : ∀ c ∈ (Nat.repr n).data, c.isDigit = true := by
  intro c hc
  exact toDigitsCore_digits (n + 1) n [] (by simp) c hc

theorem natRepr_ne_nil (n : Nat) : (Nat.repr n).data ≠ [] := by
  show Nat.toDigitsCore 10 (n + 1) n [] ≠ []
  simp only [Nat.toDigitsCore]
  by_cases h0 : n / 10 = 0
  · rw [if_pos h0]; simp
  · rw [if_neg h0]
    intro heq
    have := toDigitsCore_length n (n / 10) [Nat.digitChar (n % 10)]
    rw [heq] at this
    simp at this

theorem prefixOfCI_cons_of_eq {p c : Char} (h : p.toLower = c.toLower)
    (ps cs : List Char) : prefixOfCI (p :: ps) (c :: cs) = prefixOfCI ps cs := by
  simp [prefixOfCI, h]

theorem limitAt_canonical (digits : List Char) (hne : digits ≠ [])
    (hall : ∀ c ∈ digits, c.isDigit = true) :
    limitAt ('L' :: 'I' :: 'M' :: 'I' :: 'T' :: ' ' :: (digits ++ [';'])) = true := by
  obtain ⟨d, ds, rfl⟩ := List.exists_cons_of_ne_nil hne
  have hd : d.isDigit = true := hall d (List.mem_cons_self d ds)
  have hdns : isPySpace d = false := isDigit_not_pySpace hd
  have hds : ∀ c ∈ d :: ds, c.isDigit = true := hall
  simp only [limitAt]
  rw [prefixOfCI_cons_of_eq (by decide), prefixOfCI_cons_of_eq (by decide),
    prefixOfCI_cons_of_eq (by decide), prefixOfCI_cons_of_eq (by decide),
    prefixOfCI_cons_of_eq (by decide)]
  simp only [prefixOfCI, Bool.true_and, List.drop_succ_cons, List.drop_zero]
  rw [List.takeWhile_cons_of_pos (by decide),
    List.dropWhile_cons_of_pos (by decide), List.cons_append,
    List.takeWhile_cons_of_neg (show ¬ isPySpace d by simp [hdns]),
    List.dropWhile_cons_of_neg (show ¬ isPySpace d by simp [hdns]),
    ← List.cons_append,
    takeWhile_append_all Char.isDigit (d :: ds) ';' [] hds (by decide),
    dropWhile_append_all Char.isDigit (d :: ds) ';' [] hds (by decide)]
  simp [isWordChar, isAsciiAlnum]

theorem containsLimitAux_append (a b : List Char) (prev : Bool)
    (hb : limitAt b = true) (h0 : a = [] → prev = false)
    (hl : ∀ c, a.getLast? = some c → isWordChar c = false) :
    containsLimitAux prev (a ++ b) = true := by
  induction a generalizing prev with
  | nil =>
    have hprev : prev = false := h0 rfl
    subst hprev
    cases b with
    | nil => exact absurd hb (by decide)
    | cons c cs =>
      simp only [List.nil_append, containsLimitAux]
      rw [hb]
      simp
  | cons x a' ih =>
    simp only [List.cons_append, containsLimitAux, List.append_eq]
    have hx : containsLimitAux (isWordChar x) (a' ++ b) = true := by
      refine ih (isWordChar x) ?_ ?_
      · intro ha'
        subst ha'
        exact hl x (by simp)
      · intro c hc
        apply hl c
        cases a' with
        | nil => simp at hc
        | cons y t => rw [List.getLast?_cons_cons]; exact hc
    rw [hx]
    simp

/-- Counterexample to C4 as stated: with the (truthy) negative limit
`-3`, the appended clause `LIMIT -3` is not matched by
`\blimit\s+\d+\b`, so a second application appends a second clause. -/
theorem C4_counterexample :
    apply_limit (apply_limit "SELECT 1" (some (-3))) (some (-3)) ≠
      apply_limit "SELECT 1" (some (-3)) := by decide

/-- C4 (amended): the limit enforcer is idempotent for every SQL string
and every *non-negative* limit (`None`, `0`, or `k ≥ 0`): applying
`_apply_limit` a second time with the same limit changes nothing. -/
theorem C4_amended_idempotent (s : String) (k : Option Int)
    (h : ∀ j, k = some j → 0 ≤ j) :
    apply_limit (apply_limit s k) k = apply_limit s k := by
  cases k with
  | none => rfl
  | some j =>
    by_cases h0 : j = 0
    · subst h0; rfl
    · by_cases hc : containsLimitClause s.data = true
      · have hinner : apply_limit s (some j) = s := by
          simp only [apply_limit]
          rw [if_neg h0, if_pos hc]
        rw [hinner]
        exact hinner
      · obtain ⟨m, rfl⟩ : ∃ m : Nat, j = Int.ofNat m := by
          refine ⟨j.toNat, ?_⟩
          exact_mod_cast (Int.toNat_of_nonneg (h j rfl)).symm
        have hts : (toString (Int.ofNat m)).data = (Nat.repr m).data := rfl
        have hinner : apply_limit s (some (Int.ofNat m)) =
            ⟨rdropWhileL (fun c => c = ';') (rdropWhileL isPySpace s.data) ++
              " LIMIT ".data ++ (Nat.repr m).data ++ [';']⟩ := by
          simp only [apply_limit]
          rw [if_neg h0, if_neg hc, hts]
        have houter : containsLimitClause
            (rdropWhileL (fun c => c = ';') (rdropWhileL isPySpace s.data) ++
              " LIMIT ".data ++ (Nat.repr m).data ++ [';']) = true := by
          have hshape : rdropWhileL (fun c => c = ';') (rdropWhileL isPySpace s.data) ++
              " LIMIT ".data ++ (Nat.repr m).data ++ [';'] =
              (rdropWhileL (fun c => c = ';') (rdropWhileL isPySpace s.data) ++ [' ']) ++
                ('L' :: 'I' :: 'M' :: 'I' :: 'T' :: ' ' :: ((Nat.repr m).data ++ [';'])) := by
            rw [show (" LIMIT ".data) = [' ', 'L', 'I', 'M', 'I', 'T', ' '] from rfl]
            simp [List.append_assoc]
          rw [hshape]
          unfold containsLimitClause
          apply containsLimitAux_append _ _ _
              (limitAt_canonical (Nat.repr m).data (natRepr_ne_nil m) (natRepr_digits m))
          · intro _; rfl
          · intro c hcl
            rw [List.getLast?_concat] at hcl
            cases hcl
            decide
        rw [hinner]
        simp only [apply_limit]
        rw [if_neg h0, if_pos]
        exact houter

theorem C4_witness :
    apply_limit (apply_limit "SELECT * FROM volumes" (some 10)) (some 10) =
      apply_limit "SELECT * FROM volumes" (some 10) :=
  C4_amended_idempotent "SELECT * FROM volumes" (some 10)
    (fun j hj => by cases hj; decide)

end TextToSql
